import Mathlib

/-!
Verification of the starship game-loop framework (src/index.ts): the frame
scheduler (`setAnimationFrame`), the loop driver (`run`), and the keyboard
input tracker (`keyToButton`, `window.onkeydown` / `window.onkeyup`,
`isButtonDown`, `isButtonPressed`).

Host-clock timestamps (`performance.now()`) and intervals are modelled as
exact rationals `ℚ`.  JavaScript's `%` on numbers is truncated remainder,
embedded as `jsMod`.  The `try { cb() } catch` wrapper is embedded by making
the callback's outcome an `Except` value which the notification handler
consumes totally, so a throwing callback can never propagate out of the
handler in the model, matching the source's catch-all.
-/

namespace Starship

/-- JavaScript truncated division rounds toward zero. -/
def jsTrunc (q : ℚ) : ℤ := if 0 ≤ q then ⌊q⌋ else ⌈q⌉

/-- JavaScript `a % b` on (finite, nonzero-divisor) numbers:
truncated remainder `a - b * trunc (a / b)`. -/
def jsMod (a b : ℚ) : ℚ := a - b * (jsTrunc (a / b) : ℚ)

/-- The mutable state captured by the closure in `setAnimationFrame`
(src/index.ts lines 105-134): `then` (the drift-corrected baseline of the
last fired tick, renamed `thenTime` since `then` is reserved), the sticky
`error` slot, and — to make the log-once policy provable — a count of
`console.log` calls made by the catch branch.  The process-wide
`STARSHIP_TIMER` handle is modelled separately in `LoopState.active`. -/
structure AnimState (ε : Type) where
  thenTime : ℚ
  error : Option ε
  logCount : ℕ
deriving DecidableEq

/-- The `try { cb() } catch (err) { if (!error) { error = err; console.log(err) } }`
block: the callback's outcome is `r`; a thrown value is recorded (and logged)
only if the `error` slot is still unset.  Thrown values have TypeScript type
`Error`, which is always truthy, so `!error` is `error.isNone`. -/
def handleCb {ε : Type} (s : AnimState ε) (r : Except ε Unit) : AnimState ε :=
  match r with
  | Except.ok _ => s
  | Except.error e =>
    if s.error.isNone then
      { s with error := some e, logCount := s.logCount + 1 }
    else s

/-- One host animation-frame notification running the `start` closure of
`setAnimationFrame` (the parameter named `fps` in the source is the target
interval in milliseconds, `1000 / fps`): compute `delta = now - then`; if
`delta > fps` set `then = now - (delta % fps)` and invoke the callback
(outcome `r`) under the catch-all, else do nothing.  Returns the new state
and the number of callback invocations made for this notification. -/
def notify {ε : Type} (fps : ℚ) (s : AnimState ε) (now : ℚ) (r : Except ε Unit) :
    AnimState ε × ℕ :=
  let delta := now - s.thenTime
  if fps < delta then
    (handleCb { s with thenTime := now - jsMod delta fps } r, 1)
  else (s, 0)

/-- Whether a callback outcome is a throw. -/
def isErr {ε : Type} : Except ε Unit → Bool
  | Except.error _ => true
  | Except.ok _ => false

/-- Run a sequence of notifications, each given as (timestamp, callback
outcome if invoked).  Returns the final state, the total number of callback
invocations, and the number of invocations that threw. -/
def notifySeq {ε : Type} (fps : ℚ) (s : AnimState ε) :
    List (ℚ × Except ε Unit) → AnimState ε × ℕ × ℕ
  | [] => (s, 0, 0)
  | (t, r) :: rest =>
    let p := notify fps s t r
    let q := notifySeq fps p.1 rest
    (q.1, p.2 + q.2.1, (if p.2 = 1 ∧ isErr r = true then 1 else 0) + q.2.2)

/-- Run a sequence of notifications whose callbacks all return normally;
returns the final state and the total tick count. -/
def notifyTimes (fps : ℚ) (s : AnimState Unit) (ts : List ℚ) : AnimState Unit × ℕ :=
  let r := notifySeq fps s (ts.map (fun t => (t, Except.ok ())))
  (r.1, r.2.1)

/-- The state of `run` (src/index.ts lines 72-103) composed with its
scheduler: the drift baseline `thenTime`, whether the pending
`requestAnimationFrame` request (`STARSHIP_TIMER`) is still armed
(`active`; `cancelAnimationFrame` in `stop` clears it), the user game
state `gs`, and instrumentation counters for `update` and `destroy`
invocations.  The `queue` argument of `update` is always the same empty
array in the source, so `update` is modelled on the game state alone. -/
structure LoopState (σ : Type) where
  thenTime : ℚ
  active : Bool
  gs : σ
  updateCount : ℕ
  destroyCount : ℕ

/-- One host animation-frame notification of the running loop: the host
invokes the `start` closure only while the pending request is armed.
`start` re-arms, computes `delta`, and on `delta > fps` runs the `run`
callback `() => { if (update(state, queue)) { destroy(state); stop() } }`:
the update's boolean result decides whether `destroy` runs and the pending
request is cancelled. -/
def runNotify {σ : Type} (fps : ℚ) (update : σ → σ × Bool) (s : LoopState σ)
    (now : ℚ) : LoopState σ :=
  if s.active then
    let delta := now - s.thenTime
    if fps < delta then
      let s1 := { s with thenTime := now - jsMod delta fps }
      let u := update s1.gs
      let s2 := { s1 with gs := u.1, updateCount := s1.updateCount + 1 }
      if u.2 then { s2 with destroyCount := s2.destroyCount + 1, active := false }
      else s2
    else s
  else s

/-- A sequence of host notifications delivered to the running loop. -/
def runNotifySeq {σ : Type} (fps : ℚ) (update : σ → σ × Bool) (s : LoopState σ) :
    List ℚ → LoopState σ
  | [] => s
  | t :: ts => runNotifySeq fps update (runNotify fps update s t) ts

/-! ## Input tracker (src/index.ts lines 140-198) -/

/-- The `Button` enumeration with its numeric values (GLFW-style codes). -/
inductive Button
  | A
  | B
  | Up
  | Down
  | Left
  | Right
  | Start
  | Select
deriving DecidableEq

/-- The numeric value of each `Button` enum member. -/
def Button.code : Button → ℕ
  | Button.A => 90
  | Button.B => 88
  | Button.Up => 265
  | Button.Down => 264
  | Button.Left => 263
  | Button.Right => 262
  | Button.Start => 257
  | Button.Select => 32

/-- `keyToButton` (src/index.ts lines 152-164): the static, exact-string,
case-sensitive mapping from `KeyboardEvent.key` strings to buttons; a key
matching no case falls through and the function returns `undefined`. -/
def keyToButton (key : String) : Option Button :=
  if key = "z" then some Button.A
  else if key = "x" then some Button.B
  else if key = "ArrowUp" then some Button.Up
  else if key = "ArrowDown" then some Button.Down
  else if key = "ArrowLeft" then some Button.Left
  else if key = "ArrowRight" then some Button.Right
  else if key = "Enter" then some Button.Start
  else if key = " " then some Button.Select
  else none

/-- The `BUTTONS` record: per-button stored press timestamp (0 = released). -/
def ButtonState : Type := Button → ℚ

/-- The initial `BUTTONS` record: every button released. -/
def initButtons : ButtonState := fun _ => 0

/-- JavaScript truthiness of the `Button` enum value returned by
`keyToButton`, as tested by `if (btn)` in both key handlers. -/
def buttonTruthy (b : Button) : Bool := b.code != 0

/-- `window.onkeydown` (src/index.ts lines 182-187):
`if (btn && !BUTTONS[btn]) BUTTONS[btn] = performance.now()`. -/
def onkeydown (key : String) (now : ℚ) (st : ButtonState) : ButtonState :=
  match keyToButton key with
  | some b =>
    if buttonTruthy b = true ∧ st b = 0 then
      fun b' => if b' = b then now else st b'
    else st
  | none => st

/-- `window.onkeyup` (src/index.ts lines 177-180):
`if (btn) BUTTONS[btn] = 0`. -/
def onkeyup (key : String) (st : ButtonState) : ButtonState :=
  match keyToButton key with
  | some b =>
    if buttonTruthy b = true then (fun b' => if b' = b then 0 else st b')
    else st
  | none => st

/-- `isButtonDown` (src/index.ts lines 190-192): `BUTTONS[btn] > 0`. -/
def isButtonDown (b : Button) (st : ButtonState) : Bool := decide (0 < st b)

/-- The literal `16.666` of `isButtonPressed` ("1 frame at 60 FPS"). -/
def oneFrameMs : ℚ := 16.666

/-- `isButtonPressed` (src/index.ts lines 195-198):
`performance.now() - BUTTONS[btn] < 16.666`. -/
def isButtonPressed (b : Button) (st : ButtonState) (now : ℚ) : Bool :=
  decide (now - st b < oneFrameMs)

/-- A raw host keyboard event: key-down at a clock time, or key-up. -/
inductive KeyEvent
  | down (key : String) (time : ℚ)
  | up (key : String)

/-- Dispatch one host keyboard event to the installed handler. -/
def applyEvent : KeyEvent → ButtonState → ButtonState
  | KeyEvent.down k t, st => onkeydown k t st
  | KeyEvent.up k, st => onkeyup k st

/-- Dispatch a sequence of host keyboard events in order. -/
def applyEvents (evs : List KeyEvent) (st : ButtonState) : ButtonState :=
  evs.foldl (fun s e => applyEvent e s) st

/-- A host event is well-formed when its clock timestamp (from the
monotonic, time-origin-relative `performance.now()`) is non-negative. -/
def eventOk : KeyEvent → Prop
  | KeyEvent.down _ t => 0 ≤ t
  | KeyEvent.up _ => True

/-- `1` when the sticky error slot is occupied, else `0`: the number of
`console.log` calls the catch branch will have made once the slot holds
this content. -/
def errFlag {ε : Type} (s : AnimState ε) : ℕ := if s.error.isSome then 1 else 0

/-! ## Lemmas about the scheduler -/

lemma handleCb_thenTime {ε : Type} (s : AnimState ε) (r : Except ε Unit) :
    (handleCb s r).thenTime = s.thenTime := by
  cases r with
  | ok _ => rfl
  | error e =>
    simp only [handleCb]
    split <;> rfl

lemma notify_thenTime_eq {ε : Type} (fps now : ℚ) (s s' : AnimState ε)
    (r r' : Except ε Unit) (h : s.thenTime = s'.thenTime) :
    (notify fps s now r).1.thenTime = (notify fps s' now r').1.thenTime ∧
    (notify fps s now r).2 = (notify fps s' now r').2 := by
  by_cases hc : fps < now - s'.thenTime
  · simp [notify, h, hc, handleCb_thenTime]
  · simp [notify, h, hc]

lemma notifySeq_thenTime_count {ε : Type} (fps : ℚ)
    (evs : List (ℚ × Except ε Unit)) (s s' : AnimState ε)
    (h : s.thenTime = s'.thenTime) :
    (notifySeq fps s evs).1.thenTime
      = (notifySeq fps s' (evs.map (fun p => (p.1, Except.ok ())))).1.thenTime ∧
    (notifySeq fps s evs).2.1
      = (notifySeq fps s' (evs.map (fun p => (p.1, Except.ok ())))).2.1 := by
  induction evs generalizing s s' with
  | nil => exact ⟨h, rfl⟩
  | cons p rest ih =>
    obtain ⟨t, r⟩ := p
    simp only [notifySeq, List.map]
    obtain ⟨h1, h2⟩ := notify_thenTime_eq fps t s s' r (Except.ok ()) h
    obtain ⟨h3, h4⟩ := ih _ _ h1
    exact ⟨h3, by rw [h2, h4]⟩

lemma handleCb_log {ε : Type} (s : AnimState ε) (r : Except ε Unit)
    (h : s.logCount = errFlag s) :
    (handleCb s r).logCount = errFlag (handleCb s r) := by
  cases r with
  | ok _ => exact h
  | error e =>
    obtain ⟨t, err, lc⟩ := s
    cases err with
    | none =>
      simp [errFlag] at h
      simp [handleCb, errFlag, h]
    | some e' => simpa [handleCb, errFlag] using h

lemma notify_log_inv {ε : Type} (fps now : ℚ) (s : AnimState ε) (r : Except ε Unit)
    (h : s.logCount = errFlag s) :
    (notify fps s now r).1.logCount = errFlag (notify fps s now r).1 := by
  by_cases hc : fps < now - s.thenTime
  · simp only [notify, if_pos hc]
    exact handleCb_log _ r h
  · simpa [notify, hc] using h

lemma handleCb_error_mono {ε : Type} (s : AnimState ε) (r : Except ε Unit)
    (h : s.error.isSome = true) : (handleCb s r).error.isSome = true := by
  cases r with
  | ok _ => exact h
  | error e =>
    simp only [handleCb]
    split
    · simp
    · exact h

lemma notify_error_mono {ε : Type} (fps now : ℚ) (s : AnimState ε)
    (r : Except ε Unit) (h : s.error.isSome = true) :
    (notify fps s now r).1.error.isSome = true := by
  by_cases hc : fps < now - s.thenTime
  · simp only [notify, if_pos hc]
    exact handleCb_error_mono _ r h
  · simpa [notify, hc] using h

lemma notify_error_of_fired_fail {ε : Type} (fps now : ℚ) (s : AnimState ε)
    (r : Except ε Unit) (h1 : (notify fps s now r).2 = 1) (h2 : isErr r = true) :
    (notify fps s now r).1.error.isSome = true := by
  by_cases hc : fps < now - s.thenTime
  · cases r with
    | ok _ => simp [isErr] at h2
    | error e =>
      simp only [notify, if_pos hc, handleCb]
      split
      · simp
      · rename_i hn
        rw [Option.isSome_iff_ne_none]
        simpa [Option.isNone_iff_eq_none] using hn
  · simp [notify, hc] at h1

lemma notify_error_stable {ε : Type} (fps now : ℚ) (s : AnimState ε)
    (r : Except ε Unit)
    (h : ¬((notify fps s now r).2 = 1 ∧ isErr r = true)) :
    (notify fps s now r).1.error = s.error := by
  by_cases hc : fps < now - s.thenTime
  · cases r with
    | ok _ => simp [notify, if_pos hc, handleCb]
    | error e =>
      exfalso
      exact h ⟨by simp [notify, if_pos hc], rfl⟩
  · simp [notify, hc]

lemma notifySeq_log_inv {ε : Type} (fps : ℚ) (evs : List (ℚ × Except ε Unit))
    (s : AnimState ε) (h : s.logCount = errFlag s) :
    (notifySeq fps s evs).1.logCount = errFlag (notifySeq fps s evs).1 := by
  induction evs generalizing s with
  | nil => exact h
  | cons p rest ih =>
    obtain ⟨t, r⟩ := p
    simp only [notifySeq]
    exact ih _ (notify_log_inv fps t s r h)

lemma notifySeq_error_mono {ε : Type} (fps : ℚ) (evs : List (ℚ × Except ε Unit))
    (s : AnimState ε) (h : s.error.isSome = true) :
    (notifySeq fps s evs).1.error.isSome = true := by
  induction evs generalizing s with
  | nil => exact h
  | cons p rest ih =>
    obtain ⟨t, r⟩ := p
    simp only [notifySeq]
    exact ih _ (notify_error_mono fps t s r h)

lemma notifySeq_error_of_fails {ε : Type} (fps : ℚ)
    (evs : List (ℚ × Except ε Unit)) (s : AnimState ε)
    (h : 1 ≤ (notifySeq fps s evs).2.2) :
    (notifySeq fps s evs).1.error.isSome = true := by
  induction evs generalizing s with
  | nil => simp [notifySeq] at h
  | cons p rest ih =>
    obtain ⟨t, r⟩ := p
    simp only [notifySeq] at h ⊢
    by_cases hf : (notify fps s t r).2 = 1 ∧ isErr r = true
    · exact notifySeq_error_mono fps rest _
        (notify_error_of_fired_fail fps t s r hf.1 hf.2)
    · apply ih
      simpa [if_neg hf] using h

lemma notifySeq_error_of_no_fails {ε : Type} (fps : ℚ)
    (evs : List (ℚ × Except ε Unit)) (s : AnimState ε)
    (h : (notifySeq fps s evs).2.2 = 0) :
    (notifySeq fps s evs).1.error = s.error := by
  induction evs generalizing s with
  | nil => rfl
  | cons p rest ih =>
    obtain ⟨t, r⟩ := p
    simp only [notifySeq] at h ⊢
    by_cases hf : (notify fps s t r).2 = 1 ∧ isErr r = true
    · simp [if_pos hf] at h
    · rw [ih _ (by simpa [if_neg hf] using h)]
      exact notify_error_stable fps t s r hf

/-! ## Lemmas about the input tracker -/

lemma buttonTruthy_true (b : Button) : buttonTruthy b = true := by
  cases b <;> rfl

lemma onkeydown_some (k : String) (b0 : Button) (hk : keyToButton k = some b0)
    (now : ℚ) (st : ButtonState) :
    onkeydown k now st =
      if buttonTruthy b0 = true ∧ st b0 = 0 then
        (fun b' => if b' = b0 then now else st b')
      else st := by
  simp [onkeydown, hk]

lemma onkeydown_none (k : String) (hk : keyToButton k = none) (now : ℚ)
    (st : ButtonState) : onkeydown k now st = st := by
  simp [onkeydown, hk]

lemma onkeyup_some (k : String) (b0 : Button) (hk : keyToButton k = some b0)
    (st : ButtonState) :
    onkeyup k st =
      if buttonTruthy b0 = true then (fun b' => if b' = b0 then 0 else st b')
      else st := by
  simp [onkeyup, hk]

lemma onkeyup_none (k : String) (hk : keyToButton k = none) (st : ButtonState) :
    onkeyup k st = st := by
  simp [onkeyup, hk]

lemma applyEvent_nonneg (e : KeyEvent) (st : ButtonState) (he : eventOk e)
    (h : ∀ b, 0 ≤ st b) : ∀ b, 0 ≤ applyEvent e st b := by
  cases e with
  | down k t =>
    simp only [eventOk] at he
    intro b
    simp only [applyEvent]
    cases hk : keyToButton k with
    | none => rw [onkeydown_none k hk]; exact h b
    | some b0 =>
      rw [onkeydown_some k b0 hk]
      split
      · by_cases hb : b = b0
        · simpa [hb] using he
        · simpa [hb] using h b
      · exact h b
  | up k =>
    intro b
    simp only [applyEvent]
    cases hk : keyToButton k with
    | none => rw [onkeyup_none k hk]; exact h b
    | some b0 =>
      rw [onkeyup_some k b0 hk]
      split
      · by_cases hb : b = b0
        · simp [hb]
        · simpa [hb] using h b
      · exact h b

lemma applyEvents_nonneg (evs : List KeyEvent) (st : ButtonState)
    (he : ∀ e ∈ evs, eventOk e) (h : ∀ b, 0 ≤ st b) :
    ∀ b, 0 ≤ applyEvents evs st b := by
  induction evs generalizing st with
  | nil => exact h
  | cons e rest ih =>
    simp only [applyEvents, List.foldl] at *
    exact ih _ (fun e' h' => he e' (List.mem_cons_of_mem _ h'))
      (applyEvent_nonneg e st (he e (List.mem_cons_self _ _)) h)

/-! ## The claims -/

/-- Claim C1, amended.  The claim as frozen says a notification with
`delta >= targetIntervalMs` fires the callback exactly once; the source's
guard is `delta > fps` (strict), so at `delta = targetIntervalMs` exactly,
no callback fires (see the counterexample).  Amended: a notification fires
the callback exactly once when `delta` strictly exceeds the target
interval — never more than once, however large `delta` is — and when
`delta ≤ target` it fires zero times and mutates no scheduler state. -/
theorem claim_C1_amended {ε : Type} (fps : ℚ) (s : AnimState ε) (now : ℚ)
    (r : Except ε Unit) :
    (fps < now - s.thenTime → (notify fps s now r).2 = 1) ∧
    (now - s.thenTime ≤ fps →
      (notify fps s now r).2 = 0 ∧ (notify fps s now r).1 = s) := by
  constructor
  · intro h
    simp [notify, if_pos h]
  · intro h
    simp [notify, if_neg (not_lt.mpr h)]

/-- Claim C1, counterexample to the frozen statement: with target interval
10 and baseline 0, the notification at `now = 10` has
`delta = 10 ≥ targetIntervalMs`, yet the scheduler invokes the callback
zero times, not once. -/
theorem claim_C1_counterexample :
    (10 : ℚ) - (AnimState.mk 0 none 0 : AnimState Unit).thenTime ≥ 10 ∧
    (notify 10 (AnimState.mk 0 none 0 : AnimState Unit) 10 (Except.ok ())).2 = 0 := by
  constructor
  · norm_num
  · norm_num [notify]

theorem claim_C1_witness :
    (notify (10 : ℚ) (AnimState.mk 0 none 0 : AnimState Unit) 21 (Except.ok ())).2 = 1 ∧
    ((notify (10 : ℚ) (AnimState.mk 0 none 0 : AnimState Unit) 5 (Except.ok ())).2 = 0 ∧
      (notify (10 : ℚ) (AnimState.mk 0 none 0 : AnimState Unit) 5 (Except.ok ())).1
        = AnimState.mk 0 none 0) :=
  ⟨(claim_C1_amended 10 (AnimState.mk 0 none 0) 21 (Except.ok ())).1 (by norm_num),
   (claim_C1_amended 10 (AnimState.mk 0 none 0) 5 (Except.ok ())).2 (by norm_num)⟩

/-- Claim C2.  Whenever a tick fires, the scheduler sets
`lastTickTime = now - (delta mod targetIntervalMs)` (residual-carry drift
correction); and in the concrete trace with target interval 10 and
notifications at t = 0, 9, 21, 31 starting from baseline 0, no tick has
fired through t = 9, exactly one has fired after t = 21 with baseline 20,
and exactly two have fired after t = 31 with baseline 30. -/
theorem claim_C2 :
    (∀ (ε : Type) (fps : ℚ) (s : AnimState ε) (now : ℚ) (r : Except ε Unit),
        fps < now - s.thenTime →
        (notify fps s now r).1.thenTime = now - jsMod (now - s.thenTime) fps) ∧
    notifyTimes 10 ⟨0, none, 0⟩ [0, 9] = (⟨0, none, 0⟩, 0) ∧
    notifyTimes 10 ⟨0, none, 0⟩ [0, 9, 21] = (⟨20, none, 0⟩, 1) ∧
    notifyTimes 10 ⟨0, none, 0⟩ [0, 9, 21, 31] = (⟨30, none, 0⟩, 2) := by
  refine ⟨?_, ?_, ?_, ?_⟩
  · intro ε fps s now r h
    simp only [notify, if_pos h]
    exact handleCb_thenTime _ r
  · norm_num [notifyTimes, notifySeq, notify, handleCb, jsMod, jsTrunc]
  · norm_num [notifyTimes, notifySeq, notify, handleCb, jsMod, jsTrunc]
  · norm_num [notifyTimes, notifySeq, notify, handleCb, jsMod, jsTrunc]

theorem claim_C2_witness :
    (notify (10 : ℚ) (AnimState.mk 0 none 0 : AnimState Unit) 21
        (Except.error ())).1.thenTime = 21 - jsMod ((21 : ℚ) - 0) 10 :=
  (claim_C2.1 Unit 10 (AnimState.mk 0 none 0) 21 (Except.error ())) (by norm_num)

/-- Claim C3.  Callback exceptions never propagate out of the notification
handler (the embedded handler `notify` consumes the callback's `Except`
outcome totally, mirroring the catch-all `try`/`catch`); the loop keeps
scheduling and firing subsequent ticks exactly as in a failure-free run
(same tick count and same drift baseline as the same notification times
with all callbacks succeeding); at most one failure is ever logged, the
first failure is logged exactly once, and nothing is logged when no
invoked callback fails. -/
theorem claim_C3 {ε : Type} (fps t0 : ℚ) (evs : List (ℚ × Except ε Unit)) :
    ((notifySeq fps ⟨t0, none, 0⟩ evs).2.1
       = (notifySeq fps (⟨t0, none, 0⟩ : AnimState ε)
            (evs.map (fun p => (p.1, Except.ok ())))).2.1) ∧
    ((notifySeq fps ⟨t0, none, 0⟩ evs).1.thenTime
       = (notifySeq fps (⟨t0, none, 0⟩ : AnimState ε)
            (evs.map (fun p => (p.1, Except.ok ())))).1.thenTime) ∧
    (notifySeq fps (⟨t0, none, 0⟩ : AnimState ε) evs).1.logCount ≤ 1 ∧
    (1 ≤ (notifySeq fps (⟨t0, none, 0⟩ : AnimState ε) evs).2.2 →
      (notifySeq fps (⟨t0, none, 0⟩ : AnimState ε) evs).1.logCount = 1) ∧
    ((notifySeq fps (⟨t0, none, 0⟩ : AnimState ε) evs).2.2 = 0 →
      (notifySeq fps (⟨t0, none, 0⟩ : AnimState ε) evs).1.logCount = 0) := by
  have hinv := notifySeq_log_inv fps evs (⟨t0, none, 0⟩ : AnimState ε)
    (by simp [errFlag])
  obtain ⟨ha, hb⟩ := notifySeq_thenTime_count fps evs
    (⟨t0, none, 0⟩ : AnimState ε) (⟨t0, none, 0⟩ : AnimState ε) rfl
  refine ⟨hb, ha, ?_, ?_, ?_⟩
  · rw [hinv]
    unfold errFlag
    split <;> omega
  · intro h
    rw [hinv, errFlag, if_pos (notifySeq_error_of_fails fps evs _ h)]
  · intro h
    rw [hinv, errFlag]
    rw [notifySeq_error_of_no_fails fps evs _ h]
    simp

theorem claim_C3_witness :
    (notifySeq (10 : ℚ) (⟨0, none, 0⟩ : AnimState Unit)
        [(0, Except.ok ()), (21, Except.error ()), (32, Except.error ()),
         (43, Except.ok ())]).1.logCount = 1 :=
  (claim_C3 10 0
    [(0, Except.ok ()), (21, Except.error ()), (32, Except.error ()),
     (43, Except.ok ())]).2.2.2.1
    (by norm_num [notifySeq, notify, handleCb, isErr, jsMod, jsTrunc])

/-- Claim C5.  When a tick's update callback returns a truthy value, the
loop driver invokes `destroy` exactly once (the destroy counter rises by
exactly one) and cancels the pending animation-frame request; and once the
pending request is cancelled, any further sequence of host notifications
leaves the state untouched — in particular neither `update` nor `destroy`
is ever invoked again. -/
theorem claim_C5 {σ : Type} (fps : ℚ) (update : σ → σ × Bool) :
    (∀ (s : LoopState σ) (now : ℚ), s.active = true → fps < now - s.thenTime →
        (update s.gs).2 = true →
        (runNotify fps update s now).destroyCount = s.destroyCount + 1 ∧
        (runNotify fps update s now).active = false) ∧
    (∀ s : LoopState σ, s.active = false →
        ∀ ts, runNotifySeq fps update s ts = s) := by
  constructor
  · intro s now ha hf hu
    simp [runNotify, ha, hf, hu]
  · intro s ha ts
    induction ts with
    | nil => rfl
    | cons t ts ih => simpa [runNotifySeq, runNotify, ha] using ih

theorem claim_C5_witness :
    ((runNotify (10 : ℚ) (fun n : ℕ => (n + 1, true)) ⟨0, true, 0, 0, 0⟩ 11).destroyCount
        = 0 + 1 ∧
      (runNotify (10 : ℚ) (fun n : ℕ => (n + 1, true)) ⟨0, true, 0, 0, 0⟩ 11).active
        = false) ∧
    runNotifySeq (10 : ℚ) (fun n : ℕ => (n + 1, true)) ⟨5, false, 2, 3, 1⟩ [20, 40, 60]
      = ⟨5, false, 2, 3, 1⟩ :=
  ⟨(claim_C5 10 (fun n : ℕ => (n + 1, true))).1 ⟨0, true, 0, 0, 0⟩ 11 rfl (by norm_num) rfl,
   (claim_C5 10 (fun n : ℕ => (n + 1, true))).2 ⟨5, false, 2, 3, 1⟩ rfl [20, 40, 60]⟩

/-- Claim C4.  A key-down for a mapped button whose stored timestamp is 0
stores the current clock timestamp; a key-down for a button whose stored
timestamp is nonzero changes nothing at all; a key-up for a mapped button
sets its stored timestamp to 0 regardless of prior state. -/
theorem claim_C4 (k : String) (b : Button) (now : ℚ) (st : ButtonState)
    (hb : keyToButton k = some b) :
    (st b = 0 → onkeydown k now st b = now) ∧
    (st b ≠ 0 → onkeydown k now st = st) ∧
    onkeyup k st b = 0 := by
  refine ⟨?_, ?_, ?_⟩
  · intro h0
    simp [onkeydown_some k b hb, buttonTruthy_true, h0]
  · intro hne
    simp [onkeydown_some k b hb, buttonTruthy_true, hne]
  · simp [onkeyup_some k b hb, buttonTruthy_true]

theorem claim_C4_witness :
    onkeydown "z" 5 initButtons Button.A = 5 ∧
    onkeydown "z" 7 (onkeydown "z" 5 initButtons) = onkeydown "z" 5 initButtons ∧
    onkeyup "z" (onkeydown "z" 5 initButtons) Button.A = 0 := by
  have h1 := (claim_C4 "z" Button.A 5 initButtons (by decide)).1 rfl
  refine ⟨h1, (claim_C4 "z" Button.A 7 (onkeydown "z" 5 initButtons) (by decide)).2.1
      (by rw [h1]; norm_num),
    (claim_C4 "z" Button.A 0 (onkeydown "z" 5 initButtons) (by decide)).2.2⟩

/-- Claim C6.  `isButtonPressed` returns true iff
`now - storedTimestamp < 16.666`; consequently, for a button pressed at
time `t` from the released state (stored timestamp becomes `t`), the query
is true when evaluated at the press instant and false at any instant more
than 16.666 ms after `t`. -/
theorem claim_C6 (k : String) (b : Button) (t : ℚ) (st0 : ButtonState)
    (hb : keyToButton k = some b) (h0 : st0 b = 0) :
    (∀ (now : ℚ) (st : ButtonState),
        isButtonPressed b st now = true ↔ now - st b < oneFrameMs) ∧
    isButtonPressed b (onkeydown k t st0) t = true ∧
    (∀ now : ℚ, oneFrameMs < now - t →
        isButtonPressed b (onkeydown k t st0) now = false) := by
  have hst : onkeydown k t st0 b = t := by
    simp [onkeydown_some k b hb, buttonTruthy_true, h0]
  refine ⟨?_, ?_, ?_⟩
  · intro now st
    simp [isButtonPressed]
  · simp only [isButtonPressed, hst, sub_self, decide_eq_true_eq]
    norm_num [oneFrameMs]
  · intro now h
    simp only [isButtonPressed, hst, decide_eq_false_iff_not, not_lt]
    linarith

theorem claim_C6_witness :
    (isButtonPressed Button.A (onkeydown "z" 0 initButtons) 0 = true ↔
      (0 : ℚ) - onkeydown "z" 0 initButtons Button.A < oneFrameMs) ∧
    isButtonPressed Button.A (onkeydown "z" 0 initButtons) 0 = true ∧
    isButtonPressed Button.A (onkeydown "z" 0 initButtons) 20 = false := by
  obtain ⟨h1, h2, h3⟩ := claim_C6 "z" Button.A 0 initButtons (by decide) rfl
  exact ⟨h1 0 (onkeydown "z" 0 initButtons), h2, h3 20 (by norm_num [oneFrameMs])⟩

/-- Claim C7.  On every state reachable by events with non-negative clock
timestamps, `isButtonDown` is true iff the stored timestamp is nonzero;
moreover an event that changes a stored value to 0 is necessarily a
key-up, and no event other than a key-up ever decreases a stored value. -/
theorem claim_C7 :
    (∀ evs : List KeyEvent, (∀ e ∈ evs, eventOk e) → ∀ b : Button,
        (isButtonDown b (applyEvents evs initButtons) = true ↔
          applyEvents evs initButtons b ≠ 0)) ∧
    (∀ (e : KeyEvent) (st : ButtonState) (b : Button), eventOk e →
        applyEvent e st b ≠ st b → applyEvent e st b = 0 →
        ∃ k, e = KeyEvent.up k) ∧
    (∀ (e : KeyEvent) (st : ButtonState) (b : Button), eventOk e →
        (∀ b', 0 ≤ st b') → (∀ k, e ≠ KeyEvent.up k) →
        st b ≤ applyEvent e st b) := by
  refine ⟨?_, ?_, ?_⟩
  · intro evs he b
    have hn := applyEvents_nonneg evs initButtons he (fun _ => le_refl 0) b
    simp only [isButtonDown, decide_eq_true_eq]
    constructor
    · intro hlt
      exact ne_of_gt hlt
    · intro hne
      exact lt_of_le_of_ne hn (Ne.symm hne)
  · intro e st b he hne hz
    cases e with
    | up k => exact ⟨k, rfl⟩
    | down k t =>
      exfalso
      simp only [applyEvent] at hne hz
      cases hk : keyToButton k with
      | none => rw [onkeydown_none k hk] at hne; exact hne rfl
      | some b0 =>
        rw [onkeydown_some k b0 hk] at hne hz
        by_cases hcond : buttonTruthy b0 = true ∧ st b0 = 0
        · rw [if_pos hcond] at hne hz
          by_cases hb : b = b0
          · subst hb
            simp only [if_pos rfl] at hne hz
            rw [hz] at hne
            exact hne hcond.2.symm
          · simp only [if_neg hb] at hne
            exact hne rfl
        · rw [if_neg hcond] at hne
          exact hne rfl
  · intro e st b he hnn hk
    cases e with
    | up k => exact absurd rfl (hk k)
    | down k t =>
      simp only [eventOk] at he
      simp only [applyEvent]
      cases hkb : keyToButton k with
      | none => rw [onkeydown_none k hkb]
      | some b0 =>
        rw [onkeydown_some k b0 hkb]
        split
        · rename_i hcond
          by_cases hb : b = b0
          · subst hb
            simp only [if_pos rfl]
            rw [hcond.2]
            exact he
          · simp [if_neg hb]
        · exact le_refl _

theorem claim_C7_witness :
    (isButtonDown Button.A (applyEvents [KeyEvent.down "z" 5] initButtons) = true ↔
      applyEvents [KeyEvent.down "z" 5] initButtons Button.A ≠ 0) ∧
    initButtons Button.A ≤ applyEvent (KeyEvent.down "z" 5) initButtons Button.A := by
  constructor
  · refine claim_C7.1 [KeyEvent.down "z" 5] ?_ Button.A
    intro e hm
    simp only [List.mem_singleton] at hm
    subst hm
    norm_num [eventOk]
  · exact claim_C7.2.2 (KeyEvent.down "z" 5) initButtons Button.A (by norm_num [eventOk])
      (fun _ => le_refl 0) (fun k h => KeyEvent.noConfusion h)

/-- Claim C8.  A raw key string that is not in the static mapping table is
silently ignored by both handlers: the whole button-state mapping is left
unchanged and no error is raised (`keyToButton` falls through to
`undefined` and the `if (btn)` guard skips the write). -/
theorem claim_C8 (k : String) (now : ℚ) (st : ButtonState)
    (hk : keyToButton k = none) :
    onkeydown k now st = st ∧ onkeyup k st = st :=
  ⟨onkeydown_none k hk now st, onkeyup_none k hk st⟩

theorem claim_C8_witness :
    onkeydown "Q" 5 initButtons = initButtons ∧
    onkeyup "Q" initButtons = initButtons :=
  claim_C8 "Q" 5 initButtons (by decide)

/-- Claim C9.  For a button whose stored timestamp is 0 (released —
including never pressed), `isButtonPressed` returns true whenever the
current clock value is below 16.666, while `isButtonDown` returns false:
"just pressed" does not imply "down". -/
theorem claim_C9 (b : Button) (st : ButtonState) (now : ℚ) (h0 : st b = 0)
    (hn : now < oneFrameMs) :
    isButtonPressed b st now = true ∧ isButtonDown b st = false := by
  constructor
  · simp only [isButtonPressed, h0, sub_zero, decide_eq_true_eq]
    exact hn
  · simp [isButtonDown, h0]

theorem claim_C9_witness :
    isButtonPressed Button.A initButtons 5 = true ∧
    isButtonDown Button.A initButtons = false :=
  claim_C9 Button.A initButtons 5 rfl (by norm_num [oneFrameMs])

/-- Claim C10.  The key-to-button mapping is exact-string and
case-sensitive: `"z"` and `"x"` (lowercase) are the only strings mapping
to buttons A and B, the uppercase `"Z"` and `"X"` map to no button, and a
key-up delivered as `"Z"` leaves the whole mapping — in particular a
button A pressed as `"z"` — unchanged. -/
theorem claim_C10 :
    keyToButton "z" = some Button.A ∧ keyToButton "x" = some Button.B ∧
    keyToButton "Z" = none ∧ keyToButton "X" = none ∧
    (∀ k, keyToButton k = some Button.A ↔ k = "z") ∧
    (∀ k, keyToButton k = some Button.B ↔ k = "x") ∧
    (∀ st : ButtonState, onkeyup "Z" st = st) := by
  have hZ : keyToButton "Z" = none := by decide
  refine ⟨by decide, by decide, hZ, by decide, ?_, ?_, ?_⟩
  · intro k
    constructor
    · intro h
      by_contra hne
      simp only [keyToButton] at h
      split_ifs at h <;> simp_all
    · intro h
      subst h
      decide
  · intro k
    constructor
    · intro h
      by_contra hne
      simp only [keyToButton] at h
      split_ifs at h <;> simp_all
    · intro h
      subst h
      decide
  · intro st
    exact onkeyup_none "Z" hZ st

theorem claim_C10_witness :
    (keyToButton "q" = some Button.A ↔ "q" = "z") ∧
    onkeyup "Z" initButtons = initButtons :=
  ⟨claim_C10.2.2.2.2.1 "q", claim_C10.2.2.2.2.2.2 initButtons⟩

end Starship
